import Mathlib

/-!
Verification of the transactional-integrity core of the go-stable repository:
the nonce store (pkg/nonce RedisStore), the EIP-712 wallet-ownership verifier
(pkg/eip712 EthVerifier), the unit-of-work runner (pkg/db TxRunner), the wallet
service (internal/wallet Service with its sqlc queries), the outbox job queries,
and the readiness handler.  Each definition is a shallow embedding of the
corresponding Go function or SQL statement; theorems settle the spec claims.
-/

set_option maxRecDepth 100000

namespace GoStable

/-! ## Nonce store (pkg/nonce: RedisStore backed by Redis SETNX / SET / DEL)

Redis is modelled as an association list of entries (key, value, absolute
expiry instant).  A key is live at instant t while t is strictly below its
expiry; Redis treats an expired key as absent.  All times are integers
(seconds).  Each store operation takes an infraOk flag modelling whether the
underlying Redis command itself succeeds; on an infrastructure error the Go
methods return a wrapped error and the state is unchanged. -/

inductive NonceVal where
  | reserved
  | used
deriving DecidableEq, Repr

abbrev RedisState := List (String × NonceVal × Int)

/-- Value of key k at instant t, ignoring expired entries. -/
def lookupLive (st : RedisState) (t : Int) (k : String) : Option NonceVal :=
  match st.find? (fun e => e.1 == k) with
  | some e => if t < e.2.2 then some e.2.1 else none
  | none => none

/-- DEL key: removes every entry stored under k. -/
def redisDel (st : RedisState) (k : String) : RedisState :=
  st.filter (fun e => !(e.1 == k))

/-- SET key value EX ttl: unconditional write with fresh expiry. -/
def redisSet (st : RedisState) (t ttl : Int) (k : String) (v : NonceVal) : RedisState :=
  (k, v, t + ttl) :: redisDel st k

/-- SET key value NX EX ttl: succeeds only when the key is absent (or expired). -/
def redisSetNX (st : RedisState) (t ttl : Int) (k : String) (v : NonceVal) :
    Bool × RedisState :=
  match lookupLive st t k with
  | some _ => (false, st)
  | none => (true, redisSet st t ttl k v)

/-- DefaultTTL from pkg/nonce: 5 minutes, in seconds. -/
def DefaultTTL : Int := 300

inductive NonceErr where
  | nonceAlreadyUsed
  | infra
deriving DecidableEq, Repr

/-- Go strings.ToLower restricted to the character sequence (the flows here
only lower-case ASCII hex addresses). -/
def strToLower (s : String) : String := ⟨s.data.map Char.toLower⟩

/-- Go strings.HasPrefix over the character sequence. -/
def strStartsWith (s p : String) : Bool := p.data.isPrefixOf s.data

/-- Drop the first n characters of a string. -/
def strDrop (s : String) (n : Nat) : String := ⟨s.data.drop n⟩

/-- buildKey from pkg/nonce: nonce:{lowercase address}:{nonce}. -/
def buildKey (address nonce : String) : String :=
  "nonce" ++ ":" ++ strToLower address ++ ":" ++ nonce

/-- RedisStore.Reserve: SETNX of value reserved under the built key; a live
key (reserved or used) makes the call fail with ErrNonceAlreadyUsed. -/
def Reserve (ttl : Int) (st : RedisState) (t : Int) (nonce address : String)
    (infraOk : Bool) : Except NonceErr RedisState :=
  if infraOk then
    let r := redisSetNX st t ttl (buildKey address nonce) NonceVal.reserved
    if r.1 then Except.ok r.2 else Except.error NonceErr.nonceAlreadyUsed
  else
    Except.error NonceErr.infra

/-- RedisStore.MarkUsed: unconditional SET of value used, with a fresh TTL. -/
def MarkUsed (ttl : Int) (st : RedisState) (t : Int) (nonce address : String)
    (infraOk : Bool) : Except NonceErr RedisState :=
  if infraOk then
    Except.ok (redisSet st t ttl (buildKey address nonce) NonceVal.used)
  else
    Except.error NonceErr.infra

/-- RedisStore.Release: DEL of the built key. -/
def Release (st : RedisState) (nonce address : String) (infraOk : Bool) :
    Except NonceErr RedisState :=
  if infraOk then
    Except.ok (redisDel st (buildKey address nonce))
  else
    Except.error NonceErr.infra

/-! ## EIP-712 verifier (pkg/eip712: EthVerifier) -/

/-- go-ethereum hex digit test used by common.IsHexAddress. -/
def isHexChar (c : Char) : Bool :=
  (48 ≤ c.toNat && c.toNat ≤ 57) ||
  (97 ≤ c.toNat && c.toNat ≤ 102) ||
  (65 ≤ c.toNat && c.toNat ≤ 70)

/-- Drop a leading 0x or 0X marker, as go-ethereum has0xPrefix does. -/
def stripHexMarker (s : String) : String :=
  if strStartsWith s "0x" || strStartsWith s "0X" then strDrop s 2 else s

/-- common.IsHexAddress: after dropping an optional 0x marker, exactly 40 hex
characters remain. -/
def isHexAddress (s : String) : Bool :=
  let t := stripHexMarker s
  t.data.length == 40 && t.data.all isHexChar

inductive VerifyErr where
  | invalidAddress
  | signatureExpired
  | signatureFuture
  | nonceValidationFailed (e : NonceErr)
  | sigRecoverError
  | addressMismatch
deriving DecidableEq, Repr

/-- DefaultTimestampTolerance from pkg/eip712: 5 minutes, in seconds. -/
def DefaultTimestampTolerance : Int := 300

structure WalletVerificationMessage where
  wallet : String
  nonce : String
  timestamp : Int
deriving DecidableEq, Repr

/-- EthVerifier.validateTimestamp: the message instant must lie inside the
closed window [now - tolerance, now + tolerance]; strictly before it is
ErrSignatureExpired, strictly after it is ErrSignatureFuture. -/
def validateTimestamp (tolerance now ts : Int) : Except VerifyErr Unit :=
  if ts < now - tolerance then Except.error VerifyErr.signatureExpired
  else if ts > now + tolerance then Except.error VerifyErr.signatureFuture
  else Except.ok ()

/-- Outcome of EthVerifier.VerifySignatureOnly, which performs external
keccak-256 hashing and ECDSA public-key recovery.  valid is (true, nil),
mismatch is (false, nil), failure is any returned error (wrong signature
length or an unrecoverable signature). -/
inductive SigOutcome where
  | valid
  | mismatch
  | failure
deriving DecidableEq, Repr

/-- Ambient data for one VerifyWalletOwnership call: configured tolerance and
store TTL, the current instant, the outcome of the cryptographic check, and
whether each Redis command of the call succeeds at the infrastructure level. -/
structure VerifierCtx where
  tolerance : Int
  ttl : Int
  now : Int
  sigResult : SigOutcome
  reserveInfraOk : Bool
  markUsedInfraOk : Bool
  releaseInfraOk : Bool
deriving DecidableEq, Repr

/-- EthVerifier.VerifyWalletOwnership: validate address, validate timestamp,
reserve the nonce, run the cryptographic check, release the nonce on a failed
check, mark it used on success (a MarkUsed error is only logged).  Returns the
call result together with the nonce-store state after the call. -/
def VerifyWalletOwnership (ctx : VerifierCtx) (st : RedisState)
    (address : String) (message : WalletVerificationMessage) :
    Except VerifyErr Unit × RedisState :=
  if !(isHexAddress address) then
    (Except.error VerifyErr.invalidAddress, st)
  else
    match validateTimestamp ctx.tolerance ctx.now message.timestamp with
    | Except.error e => (Except.error e, st)
    | Except.ok _ =>
      match Reserve ctx.ttl st ctx.now message.nonce address ctx.reserveInfraOk with
      | Except.error e => (Except.error (VerifyErr.nonceValidationFailed e), st)
      | Except.ok st1 =>
        match ctx.sigResult with
        | SigOutcome.valid =>
          match MarkUsed ctx.ttl st1 ctx.now message.nonce address ctx.markUsedInfraOk with
          | Except.ok st2 => (Except.ok (), st2)
          | Except.error _ => (Except.ok (), st1)
        | SigOutcome.mismatch =>
          match Release st1 message.nonce address ctx.releaseInfraOk with
          | Except.ok st2 => (Except.error VerifyErr.addressMismatch, st2)
          | Except.error _ => (Except.error VerifyErr.addressMismatch, st1)
        | SigOutcome.failure =>
          match Release st1 message.nonce address ctx.releaseInfraOk with
          | Except.ok st2 => (Except.error VerifyErr.sigRecoverError, st2)
          | Except.error _ => (Except.error VerifyErr.sigRecoverError, st1)

/-! ## Unit-of-work runner (pkg/db: TxRunner.WithTx and WithTxResult)

The Go source begins a transaction, calls fn, rolls back when fn returns an
error and commits when it returns nil.  It installs no defer and no recover,
so a panic raised inside fn unwinds straight through WithTx: neither Rollback
nor Commit is ever invoked and the begun transaction is left open. -/

inductive FnOutcome (α : Type) where
  | ok (a : α)
  | err
  | panics
deriving DecidableEq, Repr

inductive TxFate where
  | notBegun
  | committed
  | commitFailed
  | rolledBack
  | rollbackFailed
  | leftOpen
deriving DecidableEq, Repr

inductive RunOutcome (α : Type) where
  | success (a : α)
  | failure
  | panicked
deriving DecidableEq, Repr

/-- TxRunner.WithTxResult (WithTx is the α = Unit special case): the Bool
flags say whether BeginTx, Rollback and Commit themselves succeed.  The
returned TxFate records what happened to the database transaction. -/
def WithTxResult (α : Type) (beginOk rollbackOk commitOk : Bool)
    (fn : FnOutcome α) : RunOutcome α × TxFate :=
  if !beginOk then
    (RunOutcome.failure, TxFate.notBegun)
  else
    match fn with
    | FnOutcome.ok a =>
      if commitOk then (RunOutcome.success a, TxFate.committed)
      else (RunOutcome.failure, TxFate.commitFailed)
    | FnOutcome.err =>
      if rollbackOk then (RunOutcome.failure, TxFate.rolledBack)
      else (RunOutcome.failure, TxFate.rollbackFailed)
    | FnOutcome.panics =>
      (RunOutcome.panicked, TxFate.leftOpen)

/-- TxRunner.WithTx: same control flow with no result value. -/
def WithTx (beginOk rollbackOk commitOk : Bool) (fn : FnOutcome Unit) :
    RunOutcome Unit × TxFate :=
  WithTxResult Unit beginOk rollbackOk commitOk fn

/-! ## Outbox job failure (db/queries outbox: FailOutboxJob) -/

inductive OutboxStatus where
  | pending
  | processing
  | completed
  | failed
  | deadLetter
deriving DecidableEq, Repr

structure OutboxJob where
  status : OutboxStatus
  retryCount : Nat
  maxRetries : Nat
  nextRetryAt : Option Int
  errorMessage : Option String
  lockedUntil : Option Int
deriving DecidableEq, Repr

/-- FailOutboxJob: the SET clause evaluates status first, against the
pre-update retry counter, so the row dead-letters exactly when
retry_count >= max_retries - 1 held before the increment. -/
def FailOutboxJob (j : OutboxJob) (nextRetryAt : Int) (errMsg : String) :
    OutboxJob :=
  { j with
    status :=
      if j.maxRetries - 1 ≤ j.retryCount then OutboxStatus.deadLetter
      else OutboxStatus.failed
    retryCount := j.retryCount + 1
    nextRetryAt := some nextRetryAt
    errorMessage := some errMsg
    lockedUntil := none }

/-! ## Readiness handler (internal/common/handler: HealthHandler.Ready)

The two ping outcomes stand for the database and Redis pings finishing
successfully within the 3 second context deadline of the handler. -/

structure ReadyResult where
  statusCode : Nat
  status : String
  db : String
  redis : String
deriving DecidableEq, Repr

/-- HealthHandler.Ready: start from an all-ok 200 response, downgrade per
failing dependency to 503 with that dependency marked error. -/
def Ready (dbPingOk redisPingOk : Bool) : ReadyResult :=
  let r0 : ReadyResult := { statusCode := 200, status := "ok", db := "ok", redis := "ok" }
  let r1 := if !dbPingOk then
      { r0 with db := "error", status := "degraded", statusCode := 503 }
    else r0
  let r2 := if !redisPingOk then
      { r1 with redis := "error", status := "degraded", statusCode := 503 }
    else r1
  r2

/-! ## Wallet data model and sqlc queries (db/queries wallet.sql, account.sql)

Rows are modelled with the columns the wallet flows read or write.  The
deleted flag stands for deleted_at IS NOT NULL.  Accounts carry the columns
used by UpdateAccountPrimaryWallet: owner_id, account_type = USER, status
CLOSED, primary_wallet_id. -/

structure Wallet where
  id : Nat
  externalId : String
  userId : Nat
  address : String
  label : Option String
  isPrimary : Bool
  isVerified : Bool
  deleted : Bool
deriving DecidableEq, Repr

structure User where
  id : Nat
  externalId : String
deriving DecidableEq, Repr

structure Account where
  id : Nat
  ownerId : Option Nat
  isUserType : Bool
  closed : Bool
  primaryWalletId : Option Nat
deriving DecidableEq, Repr

structure DBState where
  users : List User
  wallets : List Wallet
  accounts : List Account
deriving DecidableEq, Repr

/-- GetWalletByID: by id, excluding soft-deleted rows. -/
def GetWalletByID (db : DBState) (id : Nat) : Option Wallet :=
  db.wallets.find? (fun w => w.id == id && !w.deleted)

/-- GetWalletByIDAndUser / GetWalletForUpdate: by id and owner, excluding
soft-deleted rows. -/
def GetWalletByIDAndUser (db : DBState) (id uid : Nat) : Option Wallet :=
  db.wallets.find? (fun w => w.id == id && w.userId == uid && !w.deleted)

/-- GetWalletByExternalIDAndUser: join with users on external ids, excluding
soft-deleted wallets. -/
def GetWalletByExternalIDAndUser (db : DBState) (wExt uExt : String) :
    Option Wallet :=
  db.wallets.find? (fun w => w.externalId == wExt && !w.deleted &&
    db.users.any (fun u => u.id == w.userId && u.externalId == uExt))

/-- GetWalletByExternalIDAndUserIncludeDeleted: same join, deleted included. -/
def GetWalletByExternalIDAndUserIncludeDeleted (db : DBState) (wExt uExt : String) :
    Option Wallet :=
  db.wallets.find? (fun w => w.externalId == wExt &&
    db.users.any (fun u => u.id == w.userId && u.externalId == uExt))

/-- GetPrimaryWallet: the live primary wallet of a user, when one exists. -/
def GetPrimaryWallet (db : DBState) (uid : Nat) : Option Wallet :=
  db.wallets.find? (fun w => w.userId == uid && w.isPrimary && !w.deleted)

/-- GetUserByExternalID. -/
def GetUserByExternalID (db : DBState) (uExt : String) : Option User :=
  db.users.find? (fun u => u.externalId == uExt)

/-- UpdateWalletVerified: sets is_verified on the still-unverified live row of
this owner; returns the affected row count with the new state. -/
def UpdateWalletVerified (db : DBState) (id uid : Nat) : Nat × DBState :=
  let hit := fun (w : Wallet) => w.id == id && w.userId == uid && !w.isVerified && !w.deleted
  ((db.wallets.filter hit).length,
   { db with wallets := db.wallets.map (fun w =>
       if hit w then { w with isVerified := true } else w) })

/-- UpdateWalletLabel: relabels the live row of this owner. -/
def UpdateWalletLabel (db : DBState) (label : Option String) (id uid : Nat) :
    Nat × DBState :=
  let hit := fun (w : Wallet) => w.id == id && w.userId == uid && !w.deleted
  ((db.wallets.filter hit).length,
   { db with wallets := db.wallets.map (fun w =>
       if hit w then { w with label := label } else w) })

/-- ClearPrimaryWallet: clears is_primary on every live primary of the user. -/
def ClearPrimaryWallet (db : DBState) (uid : Nat) : DBState :=
  { db with wallets := db.wallets.map (fun w =>
      if w.userId == uid && w.isPrimary && !w.deleted then
        { w with isPrimary := false }
      else w) }

/-- SetWalletPrimary: sets is_primary on the live verified row of this owner;
returns the affected row count. -/
def SetWalletPrimary (db : DBState) (id uid : Nat) : Nat × DBState :=
  let hit := fun (w : Wallet) => w.id == id && w.userId == uid && w.isVerified && !w.deleted
  ((db.wallets.filter hit).length,
   { db with wallets := db.wallets.map (fun w =>
       if hit w then { w with isPrimary := true } else w) })

/-- SoftDeleteWallet: stamps deleted_at and drops is_primary, but only on a
live non-primary row of this owner. -/
def SoftDeleteWallet (db : DBState) (id uid : Nat) : Nat × DBState :=
  let hit := fun (w : Wallet) => w.id == id && w.userId == uid && !w.isPrimary && !w.deleted
  ((db.wallets.filter hit).length,
   { db with wallets := db.wallets.map (fun w =>
       if hit w then { w with deleted := true, isPrimary := false } else w) })

/-- UpdateAccountPrimaryWallet: repoints primary_wallet_id on every USER-type
non-closed account of the owner. -/
def UpdateAccountPrimaryWallet (db : DBState) (pw : Option Nat) (ownerId : Option Nat) :
    DBState :=
  { db with accounts := db.accounts.map (fun a =>
      if a.ownerId == ownerId && a.isUserType && !a.closed then
        { a with primaryWalletId := pw }
      else a) }

/-! ## Wallet service (internal/wallet: Service) -/

inductive SvcErr where
  | invalidInput (msg : String)
  | notFound (resource : String)
  | conflict (msg : String)
  | dbError
  | internalError (msg : String)
deriving DecidableEq, Repr

/-- parseSignature: strip an optional 0x marker, require exactly 130 hex
characters (65 bytes); returns the hex payload. -/
def parseSignature (sig : String) : Option String :=
  let s := if strStartsWith sig "0x" then strDrop sig 2 else sig
  if s.data.length == 130 && s.data.all isHexChar then some s else none

/-- Transaction wrapper semantics of WithTxResult as used by the service:
the body runs on the current state; an error from the body rolls the state
back to the pre-transaction snapshot, success commits the new state. -/
def runTx {α : Type} (db : DBState)
    (body : DBState → Except SvcErr α × DBState) :
    Except SvcErr α × DBState :=
  let r := body db
  match r.1 with
  | Except.ok a => (Except.ok a, r.2)
  | Except.error e => (Except.error e, db)

/-- Service.setPrimaryInternal: clear the previous primary, set the new one
(zero affected rows is an internal error), then repoint the owner account;
an account update failure is only logged, which the pure model renders by
always applying the update. -/
def setPrimaryInternal (db : DBState) (walletId userId : Nat) :
    Except SvcErr Unit × DBState :=
  let db1 := ClearPrimaryWallet db userId
  let r := SetWalletPrimary db1 walletId userId
  if r.1 == 0 then
    (Except.error (SvcErr.internalError "Failed to set wallet as primary"), r.2)
  else
    (Except.ok (), UpdateAccountPrimaryWallet r.2 (some walletId) (some userId))

/-- Transaction body of Service.markWalletVerified: mark verified; when the
row was already verified return its current state; otherwise, when the user
has no primary wallet yet, auto-set this one as primary (a setPrimaryInternal
error is logged and the flow continues); finally re-read the wallet. -/
def markWalletVerifiedBody (db : DBState) (w : Wallet) :
    Except SvcErr Wallet × DBState :=
  let r := UpdateWalletVerified db w.id w.userId
  if r.1 == 0 then
    match GetWalletByID r.2 w.id with
    | some cur => (Except.ok cur, r.2)
    | none => (Except.error SvcErr.dbError, r.2)
  else
    let db2 :=
      match GetPrimaryWallet r.2 w.userId with
      | none => (setPrimaryInternal r.2 w.id w.userId).2
      | some _ => r.2
    match GetWalletByID db2 w.id with
    | some uw => (Except.ok uw, db2)
    | none => (Except.error SvcErr.dbError, db2)

/-- Service.markWalletVerified: the body above inside one WithTxResult. -/
def markWalletVerified (db : DBState) (w : Wallet) :
    Except SvcErr Wallet × DBState :=
  runTx db (fun d => markWalletVerifiedBody d w)

/-- Service.VerifyWallet: parse the signature, load the wallet with the
ownership check, short-circuit to success when it is already verified,
otherwise run the EIP-712 verifier and on success mark the wallet verified.
Returns (result, database state, nonce-store state, verifier invoked). -/
def VerifyWalletService (ctx : VerifierCtx) (db : DBState) (st : RedisState)
    (userExt walletExt : String) (reqSignature reqNonce : String)
    (reqTimestamp : Int) :
    Except SvcErr Wallet × DBState × RedisState × Bool :=
  match parseSignature reqSignature with
  | none => (Except.error (SvcErr.invalidInput "Invalid signature format"), db, st, false)
  | some _ =>
    match GetWalletByExternalIDAndUser db walletExt userExt with
    | none => (Except.error (SvcErr.notFound "Wallet"), db, st, false)
    | some w =>
      if w.isVerified then
        (Except.ok w, db, st, false)
      else
        let message : WalletVerificationMessage :=
          { wallet := w.address, nonce := reqNonce, timestamp := reqTimestamp }
        let vr := VerifyWalletOwnership ctx st w.address message
        match vr.1 with
        | Except.error _ =>
          (Except.error (SvcErr.invalidInput "Wallet verification failed"), db, vr.2, true)
        | Except.ok _ =>
          let mr := markWalletVerified db w
          (mr.1, mr.2, vr.2, true)

/-- Service.RegisterWallet: validate the address (the EIP-55 checksum branch
of ValidateEthereumAddress needs keccak and is supplied as the addrOk
outcome), lower-case it, load the user, insert a fresh unverified non-primary
row unless a live row already holds the address (unique active-address key),
then re-read the row. -/
def RegisterWalletService (db : DBState) (userExt reqAddress : String)
    (reqLabel : Option String) (addrOk : Bool) (newExt : String) :
    Except SvcErr Wallet × DBState :=
  if !addrOk then
    (Except.error (SvcErr.invalidInput "Invalid Ethereum address format"), db)
  else
    let address := strToLower reqAddress
    match GetUserByExternalID db userExt with
    | none => (Except.error (SvcErr.notFound "User"), db)
    | some user =>
      if db.wallets.any (fun w => w.address == address && !w.deleted) then
        (Except.error (SvcErr.conflict "Wallet address already registered"), db)
      else
        let wid := (db.wallets.map Wallet.id).foldr Nat.max 0 + 1
        let w : Wallet :=
          { id := wid, externalId := newExt, userId := user.id, address := address,
            label := reqLabel, isPrimary := false, isVerified := false, deleted := false }
        let db1 := { db with wallets := db.wallets ++ [w] }
        match GetWalletByID db1 wid with
        | some ww => (Except.ok ww, db1)
        | none => (Except.error SvcErr.dbError, db1)

/-- Service.UpdateLabel: ownership-checked read, relabel, zero affected rows
is NotFound, then re-read. -/
def UpdateLabelService (db : DBState) (userExt walletExt label : String) :
    Except SvcErr Wallet × DBState :=
  match GetWalletByExternalIDAndUser db walletExt userExt with
  | none => (Except.error (SvcErr.notFound "Wallet"), db)
  | some w =>
    let r := UpdateWalletLabel db (some label) w.id w.userId
    if r.1 == 0 then (Except.error (SvcErr.notFound "Wallet"), r.2)
    else
      match GetWalletByExternalIDAndUser r.2 walletExt userExt with
      | some w2 => (Except.ok w2, r.2)
      | none => (Except.error (SvcErr.notFound "Wallet"), r.2)

/-- Service.SetPrimary: ownership-checked read, must be verified, idempotent
success when already primary, then inside one transaction lock the rows,
clear the previous primary, set the new one (zero affected rows fails the
transaction), repoint the owner account (failure only logged) and re-read. -/
def SetPrimaryService (db : DBState) (userExt walletExt : String) :
    Except SvcErr Wallet × DBState :=
  match GetWalletByExternalIDAndUser db walletExt userExt with
  | none => (Except.error (SvcErr.notFound "Wallet"), db)
  | some w =>
    if !w.isVerified then
      (Except.error (SvcErr.invalidInput "Wallet must be verified before setting as primary"), db)
    else if w.isPrimary then
      (Except.ok w, db)
    else
      match GetUserByExternalID db userExt with
      | none => (Except.error (SvcErr.notFound "User"), db)
      | some _user =>
        runTx db (fun d =>
          match GetWalletByIDAndUser d w.id w.userId with
          | none => (Except.error SvcErr.dbError, d)
          | some _ =>
            let d1 := ClearPrimaryWallet d w.userId
            let r := SetWalletPrimary d1 w.id w.userId
            if r.1 == 0 then
              (Except.error (SvcErr.invalidInput "Failed to set primary - wallet may not be verified"), r.2)
            else
              let d2 := UpdateAccountPrimaryWallet r.2 (some w.id) (some w.userId)
              match GetWalletByID d2 w.id with
              | some w2 => (Except.ok w2, d2)
              | none => (Except.error SvcErr.dbError, d2))

/-- Service.DeleteWallet: deleted-inclusive ownership-checked read, idempotent
success when already deleted, refusal when primary, soft delete, and on zero
affected rows a re-read that classifies the race. -/
def DeleteWalletService (db : DBState) (userExt walletExt : String) :
    Except SvcErr Unit × DBState :=
  match GetWalletByExternalIDAndUserIncludeDeleted db walletExt userExt with
  | none => (Except.error (SvcErr.notFound "Wallet"), db)
  | some w =>
    if w.deleted then (Except.ok (), db)
    else if w.isPrimary then
      (Except.error (SvcErr.invalidInput "Cannot delete primary wallet"), db)
    else
      let r := SoftDeleteWallet db w.id w.userId
      if r.1 == 0 then
        match GetWalletByExternalIDAndUserIncludeDeleted r.2 walletExt userExt with
        | none => (Except.error SvcErr.dbError, r.2)
        | some cw =>
          if cw.deleted then (Except.ok (), r.2)
          else if cw.isPrimary then
            (Except.error (SvcErr.invalidInput "Cannot delete wallet - it is now the primary wallet"), r.2)
          else (Except.error (SvcErr.internalError "Failed to delete wallet"), r.2)
      else (Except.ok (), r.2)

/-! ## Primary-wallet invariants (spec section 8, invariant 3) -/

/-- Primary-wallet invariants over the wallet rows: primary keys are unique
(auto-increment id column), at most one live row per user is primary, and a
primary row is verified. -/
def WalletInv (l : List Wallet) : Prop :=
  l.Pairwise (fun a b => a.id ≠ b.id) ∧
  l.Pairwise (fun a b =>
    ¬(a.userId = b.userId ∧ a.isPrimary = true ∧ b.isPrimary = true ∧
      a.deleted = false ∧ b.deleted = false)) ∧
  ∀ w ∈ l, w.isPrimary = true → w.isVerified = true

instance (l : List Wallet) : Decidable (WalletInv l) := by
  unfold WalletInv
  infer_instance

/-! ## Helper lemmas -/

lemma validateTimestamp_expired {tol now ts : Int} (h : ts < now - tol) :
    validateTimestamp tol now ts = Except.error VerifyErr.signatureExpired := by
  unfold validateTimestamp
  simp [h]

lemma validateTimestamp_future {tol now ts : Int} (htol : 0 ≤ tol)
    (h : now + tol < ts) :
    validateTimestamp tol now ts = Except.error VerifyErr.signatureFuture := by
  unfold validateTimestamp
  have h1 : ¬(ts < now - tol) := by omega
  simp [h1, h]

/-! ## Claim theorems -/

/-- C1: the claim says a panic inside fn makes the runner roll the transaction
back before the panic propagates.  The Go source of TxRunner.WithTx and of
WithTxResult installs no defer and no recover, so on a panicking fn the begun
transaction is left open and Rollback is never invoked: evaluating the model
at a panicking fn (with BeginTx succeeding) yields TxFate.leftOpen, which is
not TxFate.rolledBack. -/
theorem C1_panic_leaves_transaction_open :
    (WithTx true true true FnOutcome.panics).2 = TxFate.leftOpen ∧
    (WithTxResult Nat true true true FnOutcome.panics).2 = TxFate.leftOpen ∧
    TxFate.leftOpen ≠ TxFate.rolledBack := by
  refine ⟨rfl, rfl, by decide⟩

/-- C8: a failure report increments retry_count by exactly one, the status
becomes DeadLetter exactly when the incremented counter reaches max_retries,
otherwise Failed, and next_retry_at, error_message and the lease are written
as supplied. -/
theorem C8_fail_outbox_job (j : OutboxJob) (nrt : Int) (em : String) :
    (FailOutboxJob j nrt em).retryCount = j.retryCount + 1 ∧
    ((FailOutboxJob j nrt em).status = OutboxStatus.deadLetter ↔
      j.maxRetries ≤ j.retryCount + 1) ∧
    (j.retryCount + 1 < j.maxRetries →
      (FailOutboxJob j nrt em).status = OutboxStatus.failed) ∧
    (FailOutboxJob j nrt em).nextRetryAt = some nrt ∧
    (FailOutboxJob j nrt em).errorMessage = some em ∧
    (FailOutboxJob j nrt em).lockedUntil = none := by
  unfold FailOutboxJob
  refine ⟨rfl, ?_, ?_, rfl, rfl, rfl⟩
  · dsimp only
    split
    · simp
      omega
    · simp
      omega
  · intro h
    dsimp only
    rw [if_neg]
    omega

/-- C8 witness: the failure report at a concrete job with retry_count 1 and
max_retries 5. -/
theorem C8_fail_outbox_job_witness :
    (FailOutboxJob ⟨OutboxStatus.processing, 1, 5, none, none, some 50⟩ 60 "boom").retryCount = 1 + 1 ∧
    ((FailOutboxJob ⟨OutboxStatus.processing, 1, 5, none, none, some 50⟩ 60 "boom").status = OutboxStatus.deadLetter ↔
      5 ≤ 1 + 1) ∧
    (1 + 1 < 5 →
      (FailOutboxJob ⟨OutboxStatus.processing, 1, 5, none, none, some 50⟩ 60 "boom").status = OutboxStatus.failed) ∧
    (FailOutboxJob ⟨OutboxStatus.processing, 1, 5, none, none, some 50⟩ 60 "boom").nextRetryAt = some 60 ∧
    (FailOutboxJob ⟨OutboxStatus.processing, 1, 5, none, none, some 50⟩ 60 "boom").errorMessage = some "boom" ∧
    (FailOutboxJob ⟨OutboxStatus.processing, 1, 5, none, none, some 50⟩ 60 "boom").lockedUntil = none :=
  C8_fail_outbox_job ⟨OutboxStatus.processing, 1, 5, none, none, some 50⟩ 60 "boom"

/-- C9: the readiness endpoint answers 200 exactly when both the database
ping and the Redis ping succeed within the handler deadline, otherwise 503,
with the per-dependency fields reporting ok or error accordingly. -/
theorem C9_ready_status (d r : Bool) :
    ((Ready d r).statusCode = 200 ↔ d = true ∧ r = true) ∧
    (¬(d = true ∧ r = true) → (Ready d r).statusCode = 503) ∧
    (Ready d r).db = (if d then "ok" else "error") ∧
    (Ready d r).redis = (if r then "ok" else "error") := by
  cases d <;> cases r <;> simp [Ready]

/-- C2: when the message timestamp lies outside the tolerance window the
verifier fails before any nonce work: the store is unchanged, the call
errors, and (when the address passes the syntactic check that precedes the
timestamp check) the error is SignatureExpired for a too-old timestamp and
SignatureFuture for one too far in the future. -/
theorem C2_timestamp_checked_before_reserve (ctx : VerifierCtx) (st : RedisState)
    (address : String) (msg : WalletVerificationMessage)
    (htol : 0 ≤ ctx.tolerance)
    (hout : msg.timestamp < ctx.now - ctx.tolerance ∨
      ctx.now + ctx.tolerance < msg.timestamp) :
    (VerifyWalletOwnership ctx st address msg).2 = st ∧
    (∃ e, (VerifyWalletOwnership ctx st address msg).1 = Except.error e) ∧
    (isHexAddress address = true →
      (msg.timestamp < ctx.now - ctx.tolerance →
        (VerifyWalletOwnership ctx st address msg).1 =
          Except.error VerifyErr.signatureExpired) ∧
      (ctx.now + ctx.tolerance < msg.timestamp →
        (VerifyWalletOwnership ctx st address msg).1 =
          Except.error VerifyErr.signatureFuture)) := by
  by_cases haddr : isHexAddress address = true
  · rcases hout with h | h
    · have hrun : VerifyWalletOwnership ctx st address msg =
          (Except.error VerifyErr.signatureExpired, st) := by
        unfold VerifyWalletOwnership
        simp [haddr, validateTimestamp_expired h]
      refine ⟨by rw [hrun], ⟨_, by rw [hrun]⟩, fun _ => ⟨fun _ => by rw [hrun], ?_⟩⟩
      intro h2
      exact absurd h2 (by omega)
    · have hrun : VerifyWalletOwnership ctx st address msg =
          (Except.error VerifyErr.signatureFuture, st) := by
        unfold VerifyWalletOwnership
        simp [haddr, validateTimestamp_future htol h]
      refine ⟨by rw [hrun], ⟨_, by rw [hrun]⟩, fun _ => ⟨?_, fun _ => by rw [hrun]⟩⟩
      intro h2
      exact absurd h2 (by omega)
  · have haddr2 : isHexAddress address = false := by
      revert haddr
      cases isHexAddress address <;> simp
    have hrun : VerifyWalletOwnership ctx st address msg =
        (Except.error VerifyErr.invalidAddress, st) := by
      unfold VerifyWalletOwnership
      simp [haddr2]
    exact ⟨by rw [hrun], ⟨_, by rw [hrun]⟩, fun hx => absurd hx haddr⟩

/-- Sample 40-hex-digit address used by concrete witnesses. -/
def sampleAddress : String := "0xaaaaaaaaaaaaaaaaaaaaaaaaaaaaaaaaaaaaaaaa"

/-- C2 witness: a request 700 seconds in the past with a 300 second tolerance
fails with SignatureExpired and reserves nothing, on an empty store. -/
theorem C2_timestamp_checked_before_reserve_witness :
    (0 : Int) ≤ 300 ∧
    ((300 : Int) < 1000 - 300 ∨ (1000 : Int) + 300 < 300) ∧
    ((VerifyWalletOwnership ⟨300, 300, 1000, SigOutcome.valid, true, true, true⟩ []
        sampleAddress ⟨sampleAddress, "n1", 300⟩).2 = [] ∧
     (∃ e, (VerifyWalletOwnership ⟨300, 300, 1000, SigOutcome.valid, true, true, true⟩ []
        sampleAddress ⟨sampleAddress, "n1", 300⟩).1 = Except.error e) ∧
     (isHexAddress sampleAddress = true →
       ((300 : Int) < 1000 - 300 →
         (VerifyWalletOwnership ⟨300, 300, 1000, SigOutcome.valid, true, true, true⟩ []
           sampleAddress ⟨sampleAddress, "n1", 300⟩).1 =
             Except.error VerifyErr.signatureExpired) ∧
       ((1000 : Int) + 300 < 300 →
         (VerifyWalletOwnership ⟨300, 300, 1000, SigOutcome.valid, true, true, true⟩ []
           sampleAddress ⟨sampleAddress, "n1", 300⟩).1 =
             Except.error VerifyErr.signatureFuture))) :=
  ⟨by decide, Or.inl (by decide),
   C2_timestamp_checked_before_reserve _ [] sampleAddress _ (by decide) (Or.inl (by decide))⟩

lemma redisDel_find_none (l : RedisState) (k : String) :
    (redisDel l k).find? (fun e => e.1 == k) = none := by
  unfold redisDel
  simp

lemma lookupLive_del (l : RedisState) (t : Int) (k : String) :
    lookupLive (redisDel l k) t k = none := by
  unfold lookupLive
  rw [redisDel_find_none]

lemma lookupLive_set_self (l : RedisState) (t ttl : Int) (k : String) (v : NonceVal)
    (h : 0 < ttl) :
    lookupLive (redisSet l t ttl k v) t k = some v := by
  unfold lookupLive redisSet
  rw [List.find?_cons_of_pos]
  · have : t < t + ttl := by omega
    simp [this]
  · simp

/-- C3 (amended): while an unexpired reservation or Used marker exists for the
(address, nonce) pair, a second Reserve fails with ErrNonceAlreadyUsed; and
after MarkUsed every Reserve of the same pair within the store TTL fails.
The claim as frozen also asserts the failure for every later instant; the
counterexample shows the marker expires after the TTL, after which Reserve
succeeds again. -/
theorem C3_reserve_fails_while_marker_live (ttl : Int) (st : RedisState)
    (t : Int) (nonce address : String) :
    (∀ v, lookupLive st t (buildKey address nonce) = some v →
      Reserve ttl st t nonce address true = Except.error NonceErr.nonceAlreadyUsed) ∧
    (∀ st2, MarkUsed ttl st t nonce address true = Except.ok st2 →
      ∀ t2, t2 < t + ttl →
        Reserve ttl st2 t2 nonce address true = Except.error NonceErr.nonceAlreadyUsed) := by
  constructor
  · intro v hlive
    unfold Reserve redisSetNX
    simp [hlive]
  · intro st2 hmk t2 ht2
    have hst2 : st2 = redisSet st t ttl (buildKey address nonce) NonceVal.used := by
      unfold MarkUsed at hmk
      simp at hmk
      exact hmk.symm
    subst hst2
    have hlive : lookupLive (redisSet st t ttl (buildKey address nonce) NonceVal.used)
        t2 (buildKey address nonce) = some NonceVal.used := by
      unfold lookupLive redisSet
      rw [List.find?_cons_of_pos]
      · simp [ht2]
      · simp
    unfold Reserve redisSetNX
    simp [hlive]

/-- C3 counterexample: with the default 5-minute TTL, reserve then mark the
nonce used at instant 0; at instant 300 the Used marker has expired and the
exact same Reserve succeeds again, so a Used pair is not excluded from
reservation forever. -/
theorem C3_counterexample_used_marker_expires :
    Reserve DefaultTTL [] 0 "n1" "0xAb" true =
      Except.ok [("nonce:0xab:n1", NonceVal.reserved, 300)] ∧
    MarkUsed DefaultTTL [("nonce:0xab:n1", NonceVal.reserved, 300)] 0 "n1" "0xAb" true =
      Except.ok [("nonce:0xab:n1", NonceVal.used, 300)] ∧
    Reserve DefaultTTL [("nonce:0xab:n1", NonceVal.used, 300)] 300 "n1" "0xAb" true =
      Except.ok [("nonce:0xab:n1", NonceVal.reserved, 600)] := by
  refine ⟨rfl, rfl, rfl⟩

/-- C3 witness: a live Used marker makes Reserve fail, and a Reserve 100
seconds after MarkUsed (inside the 300 second TTL) fails. -/
theorem C3_reserve_fails_while_marker_live_witness :
    Reserve 300 [("nonce:0xab:n1", NonceVal.used, 300)] 100 "n1" "0xAb" true =
      Except.error NonceErr.nonceAlreadyUsed ∧
    Reserve 300 [("nonce:0xab:n1", NonceVal.used, 300)] 100 "n1" "0xAb" true =
      Except.error NonceErr.nonceAlreadyUsed :=
  ⟨(C3_reserve_fails_while_marker_live 300 [("nonce:0xab:n1", NonceVal.used, 300)]
      100 "n1" "0xAb").1 NonceVal.used (by decide),
   (C3_reserve_fails_while_marker_live 300 [("nonce:0xab:n1", NonceVal.reserved, 300)]
      0 "n1" "0xAb").2 [("nonce:0xab:n1", NonceVal.used, 300)] rfl 100 (by decide)⟩

/-- C4: when the cryptographic check fails (recovery error or recovered
address mismatch) after a successful reservation, the verifier releases the
nonce and returns AddressMismatch respectively the recovery error; afterwards
no reservation for the (address, nonce) pair is live at any instant. -/
theorem C4_failed_check_releases_nonce (ctx : VerifierCtx) (st : RedisState)
    (address : String) (msg : WalletVerificationMessage)
    (haddr : isHexAddress address = true)
    (hts : validateTimestamp ctx.tolerance ctx.now msg.timestamp = Except.ok ())
    (hfree : lookupLive st ctx.now (buildKey address msg.nonce) = none)
    (hres : ctx.reserveInfraOk = true)
    (hrel : ctx.releaseInfraOk = true)
    (hsig : ctx.sigResult = SigOutcome.mismatch ∨ ctx.sigResult = SigOutcome.failure) :
    (ctx.sigResult = SigOutcome.mismatch →
      (VerifyWalletOwnership ctx st address msg).1 =
        Except.error VerifyErr.addressMismatch) ∧
    (ctx.sigResult = SigOutcome.failure →
      (VerifyWalletOwnership ctx st address msg).1 =
        Except.error VerifyErr.sigRecoverError) ∧
    (∀ t2, lookupLive (VerifyWalletOwnership ctx st address msg).2 t2
      (buildKey address msg.nonce) = none) := by
  rcases hsig with h | h
  · have hrun : VerifyWalletOwnership ctx st address msg =
        (Except.error VerifyErr.addressMismatch,
         redisDel (redisSet st ctx.now ctx.ttl (buildKey address msg.nonce)
           NonceVal.reserved) (buildKey address msg.nonce)) := by
      unfold VerifyWalletOwnership Reserve redisSetNX Release
      simp [haddr, hts, hfree, hres, hrel, h]
    refine ⟨fun _ => by rw [hrun], fun hf => ?_, fun t2 => ?_⟩
    · rw [h] at hf
      exact absurd hf (by decide)
    · rw [hrun]
      exact lookupLive_del _ _ _
  · have hrun : VerifyWalletOwnership ctx st address msg =
        (Except.error VerifyErr.sigRecoverError,
         redisDel (redisSet st ctx.now ctx.ttl (buildKey address msg.nonce)
           NonceVal.reserved) (buildKey address msg.nonce)) := by
      unfold VerifyWalletOwnership Reserve redisSetNX Release
      simp [haddr, hts, hfree, hres, hrel, h]
    refine ⟨fun hf => ?_, fun _ => by rw [hrun], fun t2 => ?_⟩
    · rw [h] at hf
      exact absurd hf (by decide)
    · rw [hrun]
      exact lookupLive_del _ _ _

/-- C4 witness: a mismatching signature on a fresh store leaves no live
reservation behind and answers AddressMismatch. -/
theorem C4_failed_check_releases_nonce_witness :
    isHexAddress sampleAddress = true ∧
    ((VerifyWalletOwnership ⟨300, 300, 1000, SigOutcome.mismatch, true, true, true⟩ []
        sampleAddress ⟨sampleAddress, "n1", 1000⟩).1 =
          Except.error VerifyErr.addressMismatch ∧
     ∀ t2, lookupLive (VerifyWalletOwnership
         ⟨300, 300, 1000, SigOutcome.mismatch, true, true, true⟩ []
         sampleAddress ⟨sampleAddress, "n1", 1000⟩).2 t2
       (buildKey sampleAddress "n1") = none) :=
  ⟨by decide,
   (C4_failed_check_releases_nonce ⟨300, 300, 1000, SigOutcome.mismatch, true, true, true⟩
      [] sampleAddress ⟨sampleAddress, "n1", 1000⟩ (by decide) rfl rfl rfl rfl
      (Or.inl rfl)).1 rfl,
   (C4_failed_check_releases_nonce ⟨300, 300, 1000, SigOutcome.mismatch, true, true, true⟩
      [] sampleAddress ⟨sampleAddress, "n1", 1000⟩ (by decide) rfl rfl rfl rfl
      (Or.inl rfl)).2.2⟩

/-- C10: when the cryptographic check succeeds but marking the nonce Used
fails at the store, the verifier still returns success and the nonce is left
in the Reserved state. -/
theorem C10_markUsed_failure_logged_only (ctx : VerifierCtx) (st : RedisState)
    (address : String) (msg : WalletVerificationMessage)
    (haddr : isHexAddress address = true)
    (hts : validateTimestamp ctx.tolerance ctx.now msg.timestamp = Except.ok ())
    (hfree : lookupLive st ctx.now (buildKey address msg.nonce) = none)
    (hres : ctx.reserveInfraOk = true)
    (hsig : ctx.sigResult = SigOutcome.valid)
    (hmu : ctx.markUsedInfraOk = false)
    (httl : 0 < ctx.ttl) :
    (VerifyWalletOwnership ctx st address msg).1 = Except.ok () ∧
    lookupLive (VerifyWalletOwnership ctx st address msg).2 ctx.now
      (buildKey address msg.nonce) = some NonceVal.reserved := by
  have hrun : VerifyWalletOwnership ctx st address msg =
      (Except.ok (),
       redisSet st ctx.now ctx.ttl (buildKey address msg.nonce) NonceVal.reserved) := by
    unfold VerifyWalletOwnership Reserve redisSetNX MarkUsed
    simp [haddr, hts, hfree, hres, hsig, hmu]
  refine ⟨by rw [hrun], ?_⟩
  rw [hrun]
  exact lookupLive_set_self st ctx.now ctx.ttl _ _ httl

/-- C10 witness: a valid signature with a failing MarkUsed on a fresh store
reports success while the pair stays Reserved. -/
theorem C10_markUsed_failure_logged_only_witness :
    (VerifyWalletOwnership ⟨300, 300, 1000, SigOutcome.valid, true, false, true⟩ []
      sampleAddress ⟨sampleAddress, "n1", 1000⟩).1 = Except.ok () ∧
    lookupLive (VerifyWalletOwnership
        ⟨300, 300, 1000, SigOutcome.valid, true, false, true⟩ []
        sampleAddress ⟨sampleAddress, "n1", 1000⟩).2 1000
      (buildKey sampleAddress "n1") = some NonceVal.reserved :=
  C10_markUsed_failure_logged_only ⟨300, 300, 1000, SigOutcome.valid, true, false, true⟩
    [] sampleAddress ⟨sampleAddress, "n1", 1000⟩ (by decide) rfl rfl rfl rfl rfl
    (by decide)

/-- C5: a verify call on a wallet already flagged verified returns it as an
idempotent success; the verifier is not invoked, the database and the nonce
store are untouched. -/
theorem C5_already_verified_short_circuit (ctx : VerifierCtx) (db : DBState)
    (st : RedisState) (userExt walletExt reqSig reqNonce : String) (reqTs : Int)
    (w : Wallet)
    (hparse : (parseSignature reqSig).isSome = true)
    (hfind : GetWalletByExternalIDAndUser db walletExt userExt = some w)
    (hver : w.isVerified = true) :
    VerifyWalletService ctx db st userExt walletExt reqSig reqNonce reqTs =
      (Except.ok w, db, st, false) := by
  obtain ⟨s, hp⟩ := Option.isSome_iff_exists.mp hparse
  unfold VerifyWalletService
  simp [hp, hfind, hver]

/-- Sample 130-hex-digit signature payload used by concrete witnesses. -/
def sampleSignature : String :=
  "0xaaaaaaaaaaaaaaaaaaaaaaaaaaaaaaaaaaaaaaaaaaaaaaaaaaaaaaaaaaaaaaaaaaaaaaaaaaaaaaaaaaaaaaaaaaaaaaaaaaaaaaaaaaaaaaaaaaaaaaaaaaaaaaaaaa"

/-- Sample database with one user owning one verified primary wallet. -/
def sampleVerifiedDB : DBState :=
  { users := [⟨1, "u1"⟩],
    wallets := [⟨1, "w1", 1, sampleAddress, none, true, true, false⟩],
    accounts := [⟨1, some 1, true, false, some 1⟩] }

/-- C5 witness: the verify call on the sample verified wallet, with a
well-formed signature, short-circuits. -/
theorem C5_already_verified_short_circuit_witness :
    (parseSignature sampleSignature).isSome = true ∧
    GetWalletByExternalIDAndUser sampleVerifiedDB "w1" "u1" =
      some ⟨1, "w1", 1, sampleAddress, none, true, true, false⟩ ∧
    VerifyWalletService ⟨300, 300, 1000, SigOutcome.valid, true, true, true⟩
        sampleVerifiedDB [] "u1" "w1" sampleSignature "n1" 1000 =
      (Except.ok ⟨1, "w1", 1, sampleAddress, none, true, true, false⟩,
       sampleVerifiedDB, [], false) :=
  ⟨by decide, by decide,
   C5_already_verified_short_circuit ⟨300, 300, 1000, SigOutcome.valid, true, true, true⟩
     sampleVerifiedDB [] "u1" "w1" sampleSignature "n1" 1000
     ⟨1, "w1", 1, sampleAddress, none, true, true, false⟩ (by decide) (by decide) rfl⟩

lemma map_preserving_find_none (l : List Wallet) (g : Wallet → Wallet)
    (p : Wallet → Bool) (hpres : ∀ x, p (g x) = p x)
    (h : l.find? p = none) : (l.map g).find? p = none := by
  rw [List.find?_eq_none] at h ⊢
  intro y hy
  obtain ⟨x, hx, rfl⟩ := List.mem_map.mp hy
  rw [hpres]
  exact h x hx

lemma wallet_id_unique {l : List Wallet}
    (hids : l.Pairwise (fun a b => a.id ≠ b.id))
    {x w : Wallet} (hx : x ∈ l) (hw : w ∈ l) (hid : x.id = w.id) : x = w := by
  by_contra hne
  exact List.Pairwise.forall (fun a b h => (Ne.symm h)) hids hx hw hne hid

/-- C6: when a live unverified wallet of a user with no primary wallet is
marked verified, the one transaction of markWalletVerified succeeds and in
the resulting state the wallet row is verified and primary and every USER
account of the owner points at it through primary_wallet_id. -/
theorem C6_first_verified_wallet_becomes_primary (db : DBState) (w : Wallet)
    (hmem : w ∈ db.wallets)
    (hids : db.wallets.Pairwise (fun a b => a.id ≠ b.id))
    (hunver : w.isVerified = false)
    (hlive : w.deleted = false)
    (hnoprim : GetPrimaryWallet db w.userId = none) :
    (markWalletVerified db w).1.isOk = true ∧
    (∀ x ∈ (markWalletVerified db w).2.wallets, x.id = w.id →
      x.isVerified = true ∧ x.isPrimary = true) ∧
    (∀ a ∈ (markWalletVerified db w).2.accounts,
      a.ownerId = some w.userId → a.isUserType = true → a.closed = false →
      a.primaryWalletId = some w.id) := by
  -- the wallet itself cannot be primary: no live primary exists for the user
  have hwprim : w.isPrimary = false := by
    unfold GetPrimaryWallet at hnoprim
    have hnp := List.find?_eq_none.mp hnoprim w hmem
    by_cases hp : w.isPrimary
    · exact absurd (by simp [hp, hlive]) hnp
    · simpa using hp
  -- per-step update functions
  set p1 : Wallet → Bool :=
    fun x => x.id == w.id && x.userId == w.userId && !x.isVerified && !x.deleted with hp1
  set g1 : Wallet → Wallet :=
    fun x => if p1 x then { x with isVerified := true } else x with hg1
  set g2 : Wallet → Wallet :=
    fun x => if x.userId == w.userId && x.isPrimary && !x.deleted then
      { x with isPrimary := false } else x with hg2
  set p3 : Wallet → Bool :=
    fun x => x.id == w.id && x.userId == w.userId && x.isVerified && !x.deleted with hp3
  set g3 : Wallet → Wallet :=
    fun x => if p3 x then { x with isPrimary := true } else x with hg3
  have hp1w : p1 w = true := by simp [hp1, hunver, hlive]
  have hg1w : g1 w = { w with isVerified := true } := by simp [hg1, hp1w]
  have hg2w : g2 (g1 w) = { w with isVerified := true } := by
    simp [hg2, hg1w, hwprim]
  have hp3rec : p3 ({ w with isVerified := true } : Wallet) = true := by
    simp [hp3, hlive]
  have hp3w : p3 (g2 (g1 w)) = true := by rw [hg2w]; exact hp3rec
  have hg3w : g3 (g2 (g1 w)) = { w with isVerified := true, isPrimary := true } := by
    rw [hg2w, hg3]
    simp [hp3rec]
  -- step 1: UpdateWalletVerified affects the row
  have e1 : UpdateWalletVerified db w.id w.userId =
      ((db.wallets.filter p1).length, { db with wallets := db.wallets.map g1 }) := rfl
  have haff1 : ((db.wallets.filter p1).length == 0) = false := by
    have hmemf : w ∈ db.wallets.filter p1 := List.mem_filter.mpr ⟨hmem, hp1w⟩
    have hpos := List.length_pos.mpr (List.ne_nil_of_mem hmemf)
    simp only [beq_eq_false_iff_ne]
    omega
  -- step 2: still no primary wallet after the verified update
  have e2 : GetPrimaryWallet { db with wallets := db.wallets.map g1 } w.userId = none := by
    unfold GetPrimaryWallet at hnoprim ⊢
    exact map_preserving_find_none db.wallets g1 _
      (fun x => by simp only [hg1]; split <;> rfl) hnoprim
  -- step 3: SetWalletPrimary affects the row after the clear
  have hmem3 : g2 (g1 w) ∈ (db.wallets.map g1).map g2 :=
    List.mem_map.mpr ⟨g1 w, List.mem_map.mpr ⟨w, hmem, rfl⟩, rfl⟩
  have haff3 : ((((db.wallets.map g1).map g2).filter p3).length == 0) = false := by
    have hmemf : g2 (g1 w) ∈ ((db.wallets.map g1).map g2).filter p3 :=
      List.mem_filter.mpr ⟨hmem3, hp3w⟩
    have hpos := List.length_pos.mpr (List.ne_nil_of_mem hmemf)
    simp only [beq_eq_false_iff_ne]
    omega
  -- the wallet row is still found live at the end of the transaction body
  have hfind : (GetWalletByID
      { db with
        wallets := ((db.wallets.map g1).map g2).map g3,
        accounts := db.accounts.map (fun a =>
          if a.ownerId == some w.userId && a.isUserType && !a.closed then
            { a with primaryWalletId := some w.id } else a) } w.id).isSome = true := by
    unfold GetWalletByID
    rw [List.find?_isSome]
    refine ⟨g3 (g2 (g1 w)), List.mem_map.mpr ⟨g2 (g1 w), hmem3, rfl⟩, ?_⟩
    simp [hg3w, hlive]
  obtain ⟨uw, huw⟩ := Option.isSome_iff_exists.mp hfind
  -- the full run, assembled bottom-up
  have hne1 : ¬(((db.wallets.filter p1).length == 0) = true) := by
    rw [haff1]
    simp
  have hne3 : ¬(((((db.wallets.map g1).map g2).filter p3).length == 0) = true) := by
    rw [haff3]
    simp
  have espi : setPrimaryInternal { db with wallets := db.wallets.map g1 } w.id w.userId =
      (Except.ok (),
       { db with
         wallets := ((db.wallets.map g1).map g2).map g3,
         accounts := db.accounts.map (fun a =>
           if a.ownerId == some w.userId && a.isUserType && !a.closed then
             { a with primaryWalletId := some w.id } else a) }) := by
    unfold setPrimaryInternal ClearPrimaryWallet SetWalletPrimary UpdateAccountPrimaryWallet
    dsimp only
    rw [if_neg hne3]
  have ebody : markWalletVerifiedBody db w =
      (Except.ok uw,
       { db with
         wallets := ((db.wallets.map g1).map g2).map g3,
         accounts := db.accounts.map (fun a =>
           if a.ownerId == some w.userId && a.isUserType && !a.closed then
             { a with primaryWalletId := some w.id } else a) }) := by
    unfold markWalletVerifiedBody
    dsimp only
    rw [e1]
    dsimp only
    rw [if_neg hne1, e2]
    dsimp only
    rw [espi]
    dsimp only
    rw [huw]
  have hrun : markWalletVerified db w =
      (Except.ok uw,
       { db with
         wallets := ((db.wallets.map g1).map g2).map g3,
         accounts := db.accounts.map (fun a =>
           if a.ownerId == some w.userId && a.isUserType && !a.closed then
             { a with primaryWalletId := some w.id } else a) }) := by
    unfold markWalletVerified runTx
    dsimp only
    rw [ebody]
  rw [hrun]
  refine ⟨rfl, ?_, ?_⟩
  · intro x hx hid
    obtain ⟨x2, hx2, rfl⟩ := List.mem_map.mp hx
    obtain ⟨x1, hx1, rfl⟩ := List.mem_map.mp hx2
    obtain ⟨x0, hx0, rfl⟩ := List.mem_map.mp hx1
    have hid1 : ∀ y, (g1 y).id = y.id := fun y => by
      simp only [hg1]; split <;> rfl
    have hid2 : ∀ y, (g2 y).id = y.id := fun y => by
      simp only [hg2]; split <;> rfl
    have hid3 : ∀ y, (g3 y).id = y.id := fun y => by
      simp only [hg3]; split <;> rfl
    have hx0id : x0.id = w.id := by
      rw [hid3, hid2, hid1] at hid
      exact hid
    have hx0w : x0 = w := wallet_id_unique hids hx0 hmem hx0id
    subst hx0w
    rw [hg3w]
    exact ⟨rfl, rfl⟩
  · intro a ha hown htype hopen
    obtain ⟨a0, ha0, rfl⟩ := List.mem_map.mp ha
    have hfields : (if a0.ownerId == some w.userId && a0.isUserType && !a0.closed then
        { a0 with primaryWalletId := some w.id } else a0).ownerId = a0.ownerId ∧
        (if a0.ownerId == some w.userId && a0.isUserType && !a0.closed then
        { a0 with primaryWalletId := some w.id } else a0).isUserType = a0.isUserType ∧
        (if a0.ownerId == some w.userId && a0.isUserType && !a0.closed then
        { a0 with primaryWalletId := some w.id } else a0).closed = a0.closed := by
      split <;> exact ⟨rfl, rfl, rfl⟩
    have hcond : (a0.ownerId == some w.userId && a0.isUserType && !a0.closed) = true := by
      rw [hfields.1] at hown
      rw [hfields.2.1] at htype
      rw [hfields.2.2] at hopen
      simp [hown, htype, hopen]
    rw [if_pos hcond] at ha hown htype hopen ⊢

/-- Sample database with one user owning one live unverified wallet and one
open USER account. -/
def sampleUnverifiedDB : DBState :=
  { users := [⟨1, "u1"⟩],
    wallets := [⟨1, "w1", 1, sampleAddress, none, false, false, false⟩],
    accounts := [⟨1, some 1, true, false, none⟩] }

/-- C6 witness: marking the sample unverified wallet verified makes it primary
and repoints the owner account. -/
theorem C6_first_verified_wallet_becomes_primary_witness :
    (⟨1, "w1", 1, sampleAddress, none, false, false, false⟩ : Wallet) ∈ sampleUnverifiedDB.wallets ∧
    GetPrimaryWallet sampleUnverifiedDB 1 = none ∧
    ((markWalletVerified sampleUnverifiedDB ⟨1, "w1", 1, sampleAddress, none, false, false, false⟩).1.isOk = true ∧
     (∀ x ∈ (markWalletVerified sampleUnverifiedDB ⟨1, "w1", 1, sampleAddress, none, false, false, false⟩).2.wallets,
       x.id = 1 → x.isVerified = true ∧ x.isPrimary = true) ∧
     (∀ a ∈ (markWalletVerified sampleUnverifiedDB ⟨1, "w1", 1, sampleAddress, none, false, false, false⟩).2.accounts,
       a.ownerId = some 1 → a.isUserType = true → a.closed = false →
       a.primaryWalletId = some 1)) :=
  ⟨by decide, by decide,
   C6_first_verified_wallet_becomes_primary sampleUnverifiedDB
     ⟨1, "w1", 1, sampleAddress, none, false, false, false⟩
     (by decide) (by decide) rfl rfl (by decide)⟩

/-! ## Invariant-preservation helper lemmas -/

lemma walletInv_map_safe (l : List Wallet) (g : Wallet → Wallet)
    (hid : ∀ x, (g x).id = x.id)
    (huser : ∀ x, (g x).userId = x.userId)
    (hprim : ∀ x, (g x).isPrimary = true → x.isPrimary = true)
    (hdel : ∀ x, (g x).deleted = false → x.deleted = false)
    (hver : ∀ x, (g x).isPrimary = true → x.isVerified = true → (g x).isVerified = true)
    (hinv : WalletInv l) : WalletInv (l.map g) := by
  unfold WalletInv at hinv ⊢
  obtain ⟨h1, h2, h3⟩ := hinv
  refine ⟨?_, ?_, ?_⟩
  · rw [List.pairwise_map]
    refine h1.imp ?_
    intro a b hne
    rw [hid, hid]
    exact hne
  · rw [List.pairwise_map]
    refine h2.imp ?_
    intro a b hnab
    rintro ⟨hu, hpa, hpb, hda, hdb⟩
    rw [huser a, huser b] at hu
    exact hnab ⟨hu, hprim a hpa, hprim b hpb, hdel a hda, hdel b hdb⟩
  · intro x hx hp
    obtain ⟨x0, hx0, rfl⟩ := List.mem_map.mp hx
    exact hver x0 hp (h3 x0 hx0 (hprim x0 hp))

/-- Clearing the primary flag of a user and then raising it on one verified
live row preserves the primary-wallet invariants. -/
lemma walletInv_clear_set (l : List Wallet) (i u : Nat) (hinv : WalletInv l) :
    WalletInv ((l.map (fun x =>
        if x.userId == u && x.isPrimary && !x.deleted then
          { x with isPrimary := false } else x)).map (fun x =>
        if x.id == i && x.userId == u && x.isVerified && !x.deleted then
          { x with isPrimary := true } else x)) := by
  set g2 : Wallet → Wallet := fun x =>
    if x.userId == u && x.isPrimary && !x.deleted then
      { x with isPrimary := false } else x with hg2
  set g3 : Wallet → Wallet := fun x =>
    if x.id == i && x.userId == u && x.isVerified && !x.deleted then
      { x with isPrimary := true } else x with hg3
  have hg2id : ∀ x, (g2 x).id = x.id := fun x => by simp only [hg2]; split <;> rfl
  have hg2user : ∀ x, (g2 x).userId = x.userId := fun x => by
    simp only [hg2]; split <;> rfl
  have hg2del : ∀ x, (g2 x).deleted = x.deleted := fun x => by
    simp only [hg2]; split <;> rfl
  have hg2ver : ∀ x, (g2 x).isVerified = x.isVerified := fun x => by
    simp only [hg2]; split <;> rfl
  have hg3id : ∀ x, (g3 x).id = x.id := fun x => by simp only [hg3]; split <;> rfl
  have hg3user : ∀ x, (g3 x).userId = x.userId := fun x => by
    simp only [hg3]; split <;> rfl
  have hg3del : ∀ x, (g3 x).deleted = x.deleted := fun x => by
    simp only [hg3]; split <;> rfl
  have hg3ver : ∀ x, (g3 x).isVerified = x.isVerified := fun x => by
    simp only [hg3]; split <;> rfl
  have hg2prim : ∀ x, (g2 x).isPrimary = true → x.isPrimary = true := by
    intro x
    simp only [hg2]
    split
    · intro h
      exact absurd h (by simp)
    · exact fun h => h
  have hg2cleared : ∀ x, x.userId = u → x.deleted = false → (g2 x).isPrimary = false := by
    intro x hu hd
    by_cases hp : x.isPrimary = true
    · have hc : (x.userId == u && x.isPrimary && !x.deleted) = true := by
        simp [hu, hp, hd]
      simp only [hg2, hc, if_true]
    · have hp2 : x.isPrimary = false := by
        revert hp
        cases x.isPrimary <;> simp
      simp only [hg2]
      split <;> simp [hp2]
  -- field facts for the composition
  have hcompid : ∀ x, (g3 (g2 x)).id = x.id := fun x => by rw [hg3id, hg2id]
  have hcompuser : ∀ x, (g3 (g2 x)).userId = x.userId := fun x => by
    rw [hg3user, hg2user]
  have hcompdel : ∀ x, (g3 (g2 x)).deleted = x.deleted := fun x => by
    rw [hg3del, hg2del]
  unfold WalletInv at hinv ⊢
  obtain ⟨h1, h2, h3⟩ := hinv
  refine ⟨?_, ?_, ?_⟩
  · rw [List.map_map, List.pairwise_map]
    refine h1.imp ?_
    intro a b hne
    show (g3 (g2 a)).id ≠ (g3 (g2 b)).id
    rw [hcompid, hcompid]
    exact hne
  · rw [List.map_map, List.pairwise_map]
    refine (h1.and h2).imp ?_
    intro a b hab
    obtain ⟨hidab, hpuab⟩ := hab
    rintro ⟨hu, hpa, hpb, hda, hdb⟩
    simp only [Function.comp] at hu hpa hpb hda hdb
    rw [hcompuser a, hcompuser b] at hu
    rw [hcompdel a] at hda
    rw [hcompdel b] at hdb
    show False
    by_cases hai : ((g2 a).id == i && (g2 a).userId == u && (g2 a).isVerified && !(g2 a).deleted) = true
    · have haid : a.id = i := by
        have := hai
        rw [hg2id, hg2user, hg2del] at this
        simp only [Bool.and_eq_true, beq_iff_eq] at this
        exact this.1.1.1
      have hauser : a.userId = u := by
        have := hai
        rw [hg2id, hg2user, hg2del] at this
        simp only [Bool.and_eq_true, beq_iff_eq] at this
        exact this.1.1.2
      by_cases hbi : ((g2 b).id == i && (g2 b).userId == u && (g2 b).isVerified && !(g2 b).deleted) = true
      · have hbid : b.id = i := by
          have := hbi
          rw [hg2id, hg2user, hg2del] at this
          simp only [Bool.and_eq_true, beq_iff_eq] at this
          exact this.1.1.1
        exact hidab (by rw [haid, hbid])
      · have hpb2 : (g2 b).isPrimary = true := by
          have : g3 (g2 b) = g2 b := by
            simp only [hg3]
            rw [if_neg]
            simpa using hbi
          rw [this] at hpb
          exact hpb
        have : (g2 b).isPrimary = false :=
          hg2cleared b (by rw [← hu, hauser]) hdb
        rw [this] at hpb2
        exact absurd hpb2 (by simp)
    · have hpa2 : (g2 a).isPrimary = true := by
        have : g3 (g2 a) = g2 a := by
          simp only [hg3]
          rw [if_neg]
          simpa using hai
        rw [this] at hpa
        exact hpa
      by_cases hbi : ((g2 b).id == i && (g2 b).userId == u && (g2 b).isVerified && !(g2 b).deleted) = true
      · have hbuser : b.userId = u := by
          have := hbi
          rw [hg2id, hg2user, hg2del] at this
          simp only [Bool.and_eq_true, beq_iff_eq] at this
          exact this.1.1.2
        have : (g2 a).isPrimary = false :=
          hg2cleared a (by rw [hu, hbuser]) hda
        rw [this] at hpa2
        exact absurd hpa2 (by simp)
      · have hpb2 : (g2 b).isPrimary = true := by
          have : g3 (g2 b) = g2 b := by
            simp only [hg3]
            rw [if_neg]
            simpa using hbi
          rw [this] at hpb
          exact hpb
        exact hpuab ⟨hu, hg2prim a hpa2, hg2prim b hpb2, hda, hdb⟩
  · intro x hx hp
    rw [List.map_map] at hx
    obtain ⟨x0, hx0, rfl⟩ := List.mem_map.mp hx
    simp only [Function.comp] at hp ⊢
    show (g3 (g2 x0)).isVerified = true
    by_cases hc : ((g2 x0).id == i && (g2 x0).userId == u && (g2 x0).isVerified && !(g2 x0).deleted) = true
    · rw [hg3ver, hg2ver]
      have := hc
      rw [hg2ver] at this
      simp only [Bool.and_eq_true] at this
      exact this.1.2
    · have heq : g3 (g2 x0) = g2 x0 := by
        simp only [hg3]
        rw [if_neg]
        simpa using hc
      rw [heq] at hp ⊢
      rw [hg2ver]
      exact h3 x0 hx0 (hg2prim x0 hp)

lemma walletInv_runTx {α : Type} (db : DBState)
    (body : DBState → Except SvcErr α × DBState)
    (hinv : WalletInv db.wallets)
    (hbody : WalletInv ((body db).2.wallets)) :
    WalletInv ((runTx db body).2.wallets) := by
  unfold runTx
  dsimp only
  split
  · exact hbody
  · exact hinv

lemma walletInv_setPrimaryInternal (db : DBState) (i u : Nat)
    (hinv : WalletInv db.wallets) :
    WalletInv ((setPrimaryInternal db i u).2.wallets) := by
  unfold setPrimaryInternal ClearPrimaryWallet SetWalletPrimary UpdateAccountPrimaryWallet
  dsimp only
  split
  · exact walletInv_clear_set db.wallets i u hinv
  · exact walletInv_clear_set db.wallets i u hinv

lemma walletInv_updateWalletVerified (db : DBState) (i u : Nat)
    (hinv : WalletInv db.wallets) :
    WalletInv ((UpdateWalletVerified db i u).2.wallets) := by
  unfold UpdateWalletVerified
  dsimp only
  refine walletInv_map_safe _ _ ?_ ?_ ?_ ?_ ?_ hinv
  · intro x; split <;> rfl
  · intro x; split <;> rfl
  · intro x; split <;> exact fun h => h
  · intro x; split <;> exact fun h => h
  · intro x
    split
    · exact fun _ _ => rfl
    · exact fun _ h => h

lemma walletInv_markWalletVerified (db : DBState) (w : Wallet)
    (hinv : WalletInv db.wallets) :
    WalletInv ((markWalletVerified db w).2.wallets) := by
  have hinv1 : WalletInv ((UpdateWalletVerified db w.id w.userId).2.wallets) :=
    walletInv_updateWalletVerified db w.id w.userId hinv
  have hbody : WalletInv ((markWalletVerifiedBody db w).2.wallets) := by
    unfold markWalletVerifiedBody
    dsimp only
    split
    · split
      · exact hinv1
      · exact hinv1
    · have hdb2 : ∀ d2 : DBState, WalletInv d2.wallets →
          WalletInv ((match GetWalletByID d2 w.id with
            | some uw => (Except.ok uw, d2)
            | none => (Except.error SvcErr.dbError, d2)).2.wallets) := by
        intro d2 h
        split
        · exact h
        · exact h
      refine hdb2 _ ?_
      split
      · exact walletInv_setPrimaryInternal _ w.id w.userId hinv1
      · exact hinv1
  unfold markWalletVerified
  exact walletInv_runTx db _ hinv hbody

lemma mem_le_foldr_max (l : List Nat) (x : Nat) (hx : x ∈ l) :
    x ≤ l.foldr Nat.max 0 := by
  induction l with
  | nil => cases hx
  | cons a tl ih =>
    rcases List.mem_cons.mp hx with h | h
    · subst h
      exact Nat.le_max_left x (tl.foldr Nat.max 0)
    · exact le_trans (ih h) (Nat.le_max_right a (tl.foldr Nat.max 0))

lemma walletInv_append_fresh (l : List Wallet) (x : Wallet)
    (hprim : x.isPrimary = false)
    (hfresh : ∀ y ∈ l, y.id ≠ x.id)
    (hinv : WalletInv l) : WalletInv (l ++ [x]) := by
  unfold WalletInv at hinv ⊢
  obtain ⟨h1, h2, h3⟩ := hinv
  refine ⟨?_, ?_, ?_⟩
  · rw [List.pairwise_append]
    refine ⟨h1, List.pairwise_singleton _ _, ?_⟩
    intro a ha b hb
    have hbx : b = x := List.mem_singleton.mp hb
    subst hbx
    exact hfresh a ha
  · rw [List.pairwise_append]
    refine ⟨h2, List.pairwise_singleton _ _, ?_⟩
    intro a ha b hb
    have hbx : b = x := List.mem_singleton.mp hb
    subst hbx
    rintro ⟨_, _, hpb, _, _⟩
    rw [hprim] at hpb
    exact absurd hpb (by simp)
  · intro y hy hp
    rcases List.mem_append.mp hy with h | h
    · exact h3 y h hp
    · have hyx : y = x := List.mem_singleton.mp h
      subst hyx
      rw [hprim] at hp
      exact absurd hp (by simp)

lemma walletInv_register (db : DBState) (userExt reqAddress : String)
    (reqLabel : Option String) (addrOk : Bool) (newExt : String)
    (hinv : WalletInv db.wallets) :
    WalletInv ((RegisterWalletService db userExt reqAddress reqLabel addrOk newExt).2.wallets) := by
  unfold RegisterWalletService
  dsimp only
  split
  · exact hinv
  · split
    · exact hinv
    · rename_i user heq
      split
      · exact hinv
      · have happ : WalletInv (db.wallets ++
            [{ id := (db.wallets.map Wallet.id).foldr Nat.max 0 + 1, externalId := newExt,
               userId := user.id, address := strToLower reqAddress, label := reqLabel,
               isPrimary := false, isVerified := false, deleted := false }]) := by
          refine walletInv_append_fresh db.wallets _ rfl ?_ hinv
          intro y hy
          have hle : y.id ≤ (db.wallets.map Wallet.id).foldr Nat.max 0 :=
            mem_le_foldr_max _ _ (List.mem_map.mpr ⟨y, hy, rfl⟩)
          dsimp only
          omega
        split
        · exact happ
        · exact happ

lemma walletInv_updateLabel (db : DBState) (userExt walletExt lbl : String)
    (hinv : WalletInv db.wallets) :
    WalletInv ((UpdateLabelService db userExt walletExt lbl).2.wallets) := by
  unfold UpdateLabelService UpdateWalletLabel
  dsimp only
  split
  · exact hinv
  · have hmap : ∀ (i u : Nat), WalletInv (db.wallets.map (fun x =>
        if x.id == i && x.userId == u && !x.deleted then
          { x with label := some lbl } else x)) := by
      intro i u
      refine walletInv_map_safe _ _ ?_ ?_ ?_ ?_ ?_ hinv
      · intro x; split <;> rfl
      · intro x; split <;> rfl
      · intro x; split <;> exact fun h => h
      · intro x; split <;> exact fun h => h
      · intro x; split <;> exact fun _ h => h
    split
    · exact hmap _ _
    · split
      · exact hmap _ _
      · exact hmap _ _

lemma walletInv_verifyWalletService (ctx : VerifierCtx) (db : DBState)
    (st : RedisState) (userExt walletExt reqSig reqNonce : String) (reqTs : Int)
    (hinv : WalletInv db.wallets) :
    WalletInv ((VerifyWalletService ctx db st userExt walletExt reqSig reqNonce reqTs).2.1.wallets) := by
  unfold VerifyWalletService
  dsimp only
  split
  · exact hinv
  · split
    · exact hinv
    · split
      · exact hinv
      · split
        · exact hinv
        · exact walletInv_markWalletVerified db _ hinv

lemma walletInv_setPrimaryService (db : DBState) (userExt walletExt : String)
    (hinv : WalletInv db.wallets) :
    WalletInv ((SetPrimaryService db userExt walletExt).2.wallets) := by
  unfold SetPrimaryService
  dsimp only
  split
  · exact hinv
  · split
    · exact hinv
    · split
      · exact hinv
      · split
        · exact hinv
        · refine walletInv_runTx db _ hinv ?_
          dsimp only
          split
          · exact hinv
          · unfold ClearPrimaryWallet SetWalletPrimary UpdateAccountPrimaryWallet
            dsimp only
            split
            · exact walletInv_clear_set db.wallets _ _ hinv
            · split
              · exact walletInv_clear_set db.wallets _ _ hinv
              · exact walletInv_clear_set db.wallets _ _ hinv

lemma walletInv_deleteWalletService (db : DBState) (userExt walletExt : String)
    (hinv : WalletInv db.wallets) :
    WalletInv ((DeleteWalletService db userExt walletExt).2.wallets) := by
  unfold DeleteWalletService SoftDeleteWallet
  dsimp only
  split
  · exact hinv
  · split
    · exact hinv
    · split
      · exact hinv
      · have hmap : ∀ (i u : Nat), WalletInv (db.wallets.map (fun x =>
            if x.id == i && x.userId == u && !x.isPrimary && !x.deleted then
              { x with deleted := true, isPrimary := false } else x)) := by
          intro i u
          refine walletInv_map_safe _ _ ?_ ?_ ?_ ?_ ?_ hinv
          · intro x; split <;> rfl
          · intro x; split <;> rfl
          · intro x
            split
            · intro h
              exact absurd h (by simp)
            · exact fun h => h
          · intro x
            split
            · intro h
              exact absurd h (by simp)
            · exact fun h => h
          · intro x; split <;> exact fun _ h => h
        split
        · split
          · exact hmap _ _
          · split
            · exact hmap _ _
            · split
              · exact hmap _ _
              · exact hmap _ _
        · exact hmap _ _

/-- C7: every wallet service operation preserves the primary-wallet
invariants (unique row ids, at most one live primary per user, primary
implies verified), and a delete request against a live primary wallet is
rejected with the database state unchanged. -/
theorem C7_wallet_ops_preserve_primary_invariants
    (db : DBState) (hinv : WalletInv db.wallets)
    (ctx : VerifierCtx) (st : RedisState)
    (userExt walletExt reqAddress newExt lbl reqSig reqNonce : String)
    (reqLabel : Option String) (addrOk : Bool) (reqTs : Int) :
    WalletInv ((RegisterWalletService db userExt reqAddress reqLabel addrOk newExt).2.wallets) ∧
    WalletInv ((UpdateLabelService db userExt walletExt lbl).2.wallets) ∧
    WalletInv ((VerifyWalletService ctx db st userExt walletExt reqSig reqNonce reqTs).2.1.wallets) ∧
    WalletInv ((SetPrimaryService db userExt walletExt).2.wallets) ∧
    WalletInv ((DeleteWalletService db userExt walletExt).2.wallets) ∧
    (∀ w, GetWalletByExternalIDAndUserIncludeDeleted db walletExt userExt = some w →
      w.deleted = false → w.isPrimary = true →
      DeleteWalletService db userExt walletExt =
        (Except.error (SvcErr.invalidInput "Cannot delete primary wallet"), db)) := by
  refine ⟨walletInv_register db userExt reqAddress reqLabel addrOk newExt hinv,
    walletInv_updateLabel db userExt walletExt lbl hinv,
    walletInv_verifyWalletService ctx db st userExt walletExt reqSig reqNonce reqTs hinv,
    walletInv_setPrimaryService db userExt walletExt hinv,
    walletInv_deleteWalletService db userExt walletExt hinv, ?_⟩
  intro w hw hd hp
  unfold DeleteWalletService
  rw [hw]
  dsimp only
  rw [if_neg (by simp [hd]), if_pos (by simp [hp])]

/-- C7 witness: the sample database satisfies the invariants, the operations
keep them, and deleting its primary wallet is rejected with the state
unchanged. -/
theorem C7_wallet_ops_preserve_primary_invariants_witness :
    WalletInv sampleVerifiedDB.wallets ∧
    WalletInv ((SetPrimaryService sampleVerifiedDB "u1" "w1").2.wallets) ∧
    WalletInv ((DeleteWalletService sampleVerifiedDB "u1" "w1").2.wallets) ∧
    DeleteWalletService sampleVerifiedDB "u1" "w1" =
      (Except.error (SvcErr.invalidInput "Cannot delete primary wallet"), sampleVerifiedDB) :=
  ⟨by decide,
   (C7_wallet_ops_preserve_primary_invariants sampleVerifiedDB (by decide)
     ⟨300, 300, 1000, SigOutcome.valid, true, true, true⟩ [] "u1" "w1" sampleAddress
     "w2" "label2" sampleSignature "n1" none true 1000).2.2.2.1,
   (C7_wallet_ops_preserve_primary_invariants sampleVerifiedDB (by decide)
     ⟨300, 300, 1000, SigOutcome.valid, true, true, true⟩ [] "u1" "w1" sampleAddress
     "w2" "label2" sampleSignature "n1" none true 1000).2.2.2.2.1,
   (C7_wallet_ops_preserve_primary_invariants sampleVerifiedDB (by decide)
     ⟨300, 300, 1000, SigOutcome.valid, true, true, true⟩ [] "u1" "w1" sampleAddress
     "w2" "label2" sampleSignature "n1" none true 1000).2.2.2.2.2
     ⟨1, "w1", 1, sampleAddress, none, true, true, false⟩ (by decide) rfl rfl⟩

/-- C9 witness: the readiness result when the database ping fails and the
Redis ping succeeds. -/
theorem C9_ready_status_witness :
    ((Ready false true).statusCode = 200 ↔ false = true ∧ true = true) ∧
    (¬(false = true ∧ true = true) → (Ready false true).statusCode = 503) ∧
    (Ready false true).db = (if false then "ok" else "error") ∧
    (Ready false true).redis = (if true then "ok" else "error") :=
  C9_ready_status false true

end GoStable
